import Mathlib

/-!
Verification development for the Telegram stories downloader bot
(`bot.py`, `config.py`, `userbot.py`).

The Python code is shallowly embedded: strings are `List Char`, the
Telethon/aiogram calls are abstracted as parameters (the upstream story
collections are given as lists, the per-story media download as a function
returning a result code), and the PostgreSQL tables are lists of rows.
-/

namespace DownloaderBot

/-! ## Input classifier (`StoriesDownloader.get_entity_from_input`, bot.py:254-280) -/

/-- Python `str.strip()` on the characters of the input: drop leading and
trailing whitespace. -/
def isWs (c : Char) : Bool := c.isWhitespace

/-- `input_text.strip()`: remove leading and trailing whitespace. -/
def pyStrip (s : List Char) : List Char :=
  ((s.dropWhile isWs).reverse.dropWhile isWs).reverse

/-- The literal characters `t.me/` of the story-link regex
`t\.me/([^/]+)/s/(\d+)`. -/
def tmeLit : List Char := ['t', '.', 'm', 'e', '/']

/-- The literal characters `/s/` of the story-link regex. -/
def slashS : List Char := ['/', 's', '/']

/-- One attempted match of the regex `t\.me/([^/]+)/s/(\d+)` anchored at the
start of `s`: the literal `t.me/`, then a maximal nonempty run of non-`/`
characters (the greedy group `[^/]+`, which cannot backtrack past a `/`),
then the literal `/s/`, then at least one digit.  Returns the captured
group 1 on success. -/
def matchStoryLinkAt : List Char → Option (List Char)
  | 't' :: '.' :: 'm' :: 'e' :: '/' :: rest =>
    let seg := rest.takeWhile (fun c => c != '/')
    match rest.dropWhile (fun c => c != '/') with
    | '/' :: 's' :: '/' :: d :: _ =>
      if seg ≠ [] ∧ d.isDigit then some seg else none
    | _ => none
  | _ => none

/-- `re.search(story_link_pattern, input_text)`: try the anchored match at
every start position, leftmost first, and return group 1 (the username part)
of the first success. -/
def findStoryLink : List Char → Option (List Char)
  | [] => none
  | c :: cs =>
    match matchStoryLinkAt (c :: cs) with
    | some seg => some seg
    | none => findStoryLink cs

/-- `re.match(r'^\+?\d{10,15}$', input_text)`: an optional leading `+`
followed by 10 to 15 digits and nothing else. -/
def isPhoneMatch (s : List Char) : Bool :=
  let ds := if s.head? = some '+' then s.tail else s
  decide (10 ≤ ds.length) && decide (ds.length ≤ 15) && ds.all Char.isDigit

/-- The classification tag returned as the second component of
`get_entity_from_input`. -/
inductive EntityKind
  | direct_link
  | username
  | phone
deriving DecidableEq, Repr

/-- `StoriesDownloader.get_entity_from_input`: strip the input, then try in
order: the story-link regex search (kind `direct_link`, resolved by the
captured username), a leading `@` (kind `username`), the phone regex (kind
`phone`), and otherwise the bare-username fallback (kind `username`).
Returns the classification kind together with the text first passed to
`userbot.get_entity` (the resolution key). -/
def get_entity_from_input (input_text : List Char) : EntityKind × List Char :=
  let t := pyStrip input_text
  match findStoryLink t with
  | some uname => (EntityKind.direct_link, uname)
  | none =>
    if t.head? = some '@' then (EntityKind.username, t)
    else if isPhoneMatch t then (EntityKind.phone, t)
    else (EntityKind.username, t)

/-- The declarative shape of one occurrence of the story-link pattern:
`t.me/` ++ a nonempty `/`-free segment ++ `/s/` ++ a digit. -/
def storyLinkOcc (seg : List Char) (d : Char) : List Char :=
  tmeLit ++ seg ++ slashS ++ [d]

/-- The input contains, anywhere, a substring of the shape
`t.me/<segment>/s/<digit>` (which is exactly when the regex
`t\.me/([^/]+)/s/(\d+)` has a match). -/
def ContainsStoryShape (s : List Char) : Prop :=
  ∃ p seg d t, seg ≠ [] ∧ (∀ c ∈ seg, c ≠ '/') ∧ d.isDigit = true ∧
    s = p ++ storyLinkOcc seg d ++ t

example : get_entity_from_input "t.me/durov/s/123".toList =
    (EntityKind.direct_link, "durov".toList) := by decide

example : get_entity_from_input "  @durov ".toList =
    (EntityKind.username, "@durov".toList) := by decide

example : get_entity_from_input "+998901234567".toList =
    (EntityKind.phone, "+998901234567".toList) := by decide

example : get_entity_from_input "12345".toList =
    (EntityKind.username, "12345".toList) := by decide

example : get_entity_from_input "example.com/durov/s/123?single".toList =
    (EntityKind.username, "example.com/durov/s/123?single".toList) := by decide

example : get_entity_from_input "xt.me/durov/s/123".toList =
    (EntityKind.direct_link, "durov".toList) := by decide

example : get_entity_from_input "t.me/durov/s/123?single".toList =
    (EntityKind.direct_link, "durov".toList) := by decide

/-! ### Lemmas about the story-link regex -/

lemma takeWhile_append_cons (p : Char → Bool) (l : List Char) (c : Char) (t : List Char)
    (hl : ∀ x ∈ l, p x = true) (hc : p c = false) :
    (l ++ c :: t).takeWhile p = l := by
  induction l with
  | nil => simp [List.takeWhile_cons, hc]
  | cons a l ih =>
    have ha : p a = true := hl a (List.mem_cons_self a l)
    have ih' := ih fun x hx => hl x (List.mem_cons_of_mem a hx)
    simp [List.takeWhile_cons, ha, ih']

lemma dropWhile_append_cons (p : Char → Bool) (l : List Char) (c : Char) (t : List Char)
    (hl : ∀ x ∈ l, p x = true) (hc : p c = false) :
    (l ++ c :: t).dropWhile p = c :: t := by
  induction l with
  | nil => simp [List.dropWhile_cons, hc]
  | cons a l ih =>
    have ha : p a = true := hl a (List.mem_cons_self a l)
    have ih' := ih fun x hx => hl x (List.mem_cons_of_mem a hx)
    simp [List.dropWhile_cons, ha, ih']

/-- The anchored match succeeds on any string that starts with a full
occurrence of the story-link shape, and captures the segment. -/
lemma matchStoryLinkAt_occ (seg : List Char) (d : Char) (rest : List Char)
    (hseg : seg ≠ []) (hsl : ∀ c ∈ seg, c ≠ '/') (hd : d.isDigit = true) :
    matchStoryLinkAt (storyLinkOcc seg d ++ rest) = some seg := by
  have hs : storyLinkOcc seg d ++ rest =
      't' :: '.' :: 'm' :: 'e' :: '/' :: (seg ++ '/' :: 's' :: '/' :: d :: rest) := by
    simp [storyLinkOcc, tmeLit, slashS]
  have hp : ∀ x ∈ seg, (x != '/') = true := fun x hx => bne_iff_ne.mpr (hsl x hx)
  have htk : (seg ++ '/' :: 's' :: '/' :: d :: rest).takeWhile (fun c => c != '/') = seg :=
    takeWhile_append_cons _ _ _ _ hp (by decide)
  have hdr : (seg ++ '/' :: 's' :: '/' :: d :: rest).dropWhile (fun c => c != '/') =
      '/' :: 's' :: '/' :: d :: rest :=
    dropWhile_append_cons _ _ _ _ hp (by decide)
  rw [hs]
  simp [matchStoryLinkAt, htk, hdr, hseg, hd]

/-- Inversion: a successful anchored match means the string starts with a
full occurrence of the story-link shape whose captured segment is the
result. -/
lemma matchStoryLinkAt_some {s seg : List Char} (h : matchStoryLinkAt s = some seg) :
    ∃ d t, seg ≠ [] ∧ (∀ c ∈ seg, c ≠ '/') ∧ d.isDigit = true ∧
      s = storyLinkOcc seg d ++ t := by
  unfold matchStoryLinkAt at h
  split at h
  · rename_i rest
    dsimp only at h
    split at h
    · rename_i d tail heq
      split at h
      · rename_i hcond
        obtain ⟨hseg, hd⟩ := hcond
        injection h with h'
        subst h'
        refine ⟨d, tail, hseg, ?_, hd, ?_⟩
        · intro c hc
          have hpx := List.mem_takeWhile_imp hc
          exact bne_iff_ne.mp hpx
        · have hrest : rest =
              rest.takeWhile (fun c => c != '/') ++ ('/' :: 's' :: '/' :: d :: tail) := by
            conv_lhs => rw [← List.takeWhile_append_dropWhile (fun c => c != '/') rest]
            rw [heq]
          conv_lhs => rw [hrest]
          simp [storyLinkOcc, tmeLit, slashS]
      · exact absurd h (by simp)
    · exact absurd h (by simp)
  · exact absurd h (by simp)

/-- The regex search succeeds exactly on strings containing the story-link
shape somewhere. -/
lemma findStoryLink_isSome_iff (s : List Char) :
    (findStoryLink s).isSome = true ↔ ContainsStoryShape s := by
  induction s with
  | nil =>
    constructor
    · intro h; simp [findStoryLink] at h
    · rintro ⟨p, seg, d, t, hseg, hsl, hd, he⟩
      exact absurd he (by simp [storyLinkOcc, tmeLit])
  | cons c cs ih =>
    constructor
    · intro h
      cases hm : matchStoryLinkAt (c :: cs) with
      | some seg =>
        obtain ⟨d, t, hseg, hsl, hd, he⟩ := matchStoryLinkAt_some hm
        exact ⟨[], seg, d, t, hseg, hsl, hd, by simpa using he⟩
      | none =>
        have h' : (findStoryLink cs).isSome = true := by
          rw [findStoryLink, hm] at h
          exact h
        obtain ⟨p, seg, d, t, hseg, hsl, hd, he⟩ := ih.mp h'
        exact ⟨c :: p, seg, d, t, hseg, hsl, hd, by simp [he]⟩
    · rintro ⟨p, seg, d, t, hseg, hsl, hd, he⟩
      cases p with
      | nil =>
        simp only [List.nil_append] at he
        rw [findStoryLink, he, matchStoryLinkAt_occ seg d t hseg hsl hd]
        simp
      | cons a p' =>
        simp only [List.cons_append, List.cons.injEq] at he
        have hcs : (findStoryLink cs).isSome = true :=
          ih.mpr ⟨p', seg, d, t, hseg, hsl, hd, he.2⟩
        rw [findStoryLink]
        cases hm : matchStoryLinkAt (c :: cs) with
        | some seg' => simp
        | none => simpa using hcs

/-! ### The stripped input contains the shape iff the raw input does -/

/-- Drop trailing whitespace (the right half of `str.strip()`). -/
def dropTrailingWs (s : List Char) : List Char := (s.reverse.dropWhile isWs).reverse

lemma pyStrip_eq (s : List Char) : pyStrip s = dropTrailingWs (s.dropWhile isWs) := rfl

lemma isDigit_isWs_false {c : Char} (h : c.isDigit = true) : isWs c = false := by
  rcases Bool.eq_false_or_eq_true (isWs c) with ht | hf
  · exfalso
    have hcase : c = ' ' ∨ c = '\t' ∨ c = '\r' ∨ c = '\n' := by
      simpa [isWs, Char.isWhitespace, or_assoc] using ht
    rcases hcase with rfl | rfl | rfl | rfl <;> exact absurd h (by decide)
  · exact hf

lemma containsShape_dropWhileWs {s : List Char} (h : ContainsStoryShape s) :
    ContainsStoryShape (s.dropWhile isWs) := by
  induction s with
  | nil => simpa using h
  | cons c cs ih =>
    by_cases hc : isWs c = true
    · obtain ⟨p, seg, d, t, hseg, hsl, hd, he⟩ := h
      cases p with
      | nil =>
        have hct : c = 't' := by
          simpa [storyLinkOcc, tmeLit] using congrArg List.head? he
        rw [hct] at hc
        exact absurd hc (by decide)
      | cons a p' =>
        simp only [List.cons_append, List.cons.injEq] at he
        have hshape : ContainsStoryShape cs := ⟨p', seg, d, t, hseg, hsl, hd, he.2⟩
        simpa [List.dropWhile_cons, hc] using ih hshape
    · simp only [Bool.not_eq_true] at hc
      simpa [List.dropWhile_cons, hc] using h

lemma containsShape_dropTrailingWs {s : List Char} (h : ContainsStoryShape s) :
    ContainsStoryShape (dropTrailingWs s) := by
  induction s using List.reverseRecOn with
  | nil => simpa using h
  | append_singleton l a ih =>
    by_cases ha : isWs a = true
    · have hdt : dropTrailingWs (l ++ [a]) = dropTrailingWs l := by
        simp [dropTrailingWs, List.dropWhile_cons, ha]
      rw [hdt]
      apply ih
      obtain ⟨p, seg, d, t, hseg, hsl, hd, he⟩ := h
      induction t using List.reverseRecOn with
      | nil =>
        exfalso
        have he2 : l ++ [a] = (p ++ (tmeLit ++ seg ++ slashS)) ++ [d] := by
          simpa [storyLinkOcc] using he
        have hg := congrArg List.getLast? he2
        rw [List.getLast?_concat, List.getLast?_concat] at hg
        have had : a = d := by injection hg
        rw [had, isDigit_isWs_false hd] at ha
        exact Bool.false_ne_true ha
      | append_singleton t' b iht =>
        have he' : (p ++ storyLinkOcc seg d ++ t') ++ [b] = l ++ [a] := by
          rw [he]; simp
        have hb : b = a := by
          have hg := congrArg List.getLast? he'
          rw [List.getLast?_concat, List.getLast?_concat] at hg
          injection hg
        subst hb
        exact ⟨p, seg, d, t', hseg, hsl, hd, (List.append_cancel_right he').symm⟩
    · have : dropTrailingWs (l ++ [a]) = l ++ [a] := by
        simp only [Bool.not_eq_true] at ha
        simp [dropTrailingWs, List.dropWhile_cons, ha]
      rw [this]
      exact h

lemma containsShape_of_strip {s : List Char} (h : ContainsStoryShape (pyStrip s)) :
    ContainsStoryShape s := by
  have h1 : s.dropWhile isWs =
      pyStrip s ++ ((s.dropWhile isWs).reverse.takeWhile isWs).reverse := by
    conv_lhs => rw [← List.reverse_reverse (s.dropWhile isWs),
      ← List.takeWhile_append_dropWhile isWs (s.dropWhile isWs).reverse]
    rw [List.reverse_append]
    rfl
  have h2 : s = s.takeWhile isWs ++ s.dropWhile isWs :=
    (List.takeWhile_append_dropWhile isWs s).symm
  obtain ⟨p, seg, d, t, hseg, hsl, hd, he⟩ := h
  refine ⟨s.takeWhile isWs ++ p, seg, d,
    t ++ ((s.dropWhile isWs).reverse.takeWhile isWs).reverse, hseg, hsl, hd, ?_⟩
  conv_lhs => rw [h2]
  conv_lhs => rw [h1]
  conv_lhs => rw [he]
  simp

lemma containsShape_strip {s : List Char} (h : ContainsStoryShape s) :
    ContainsStoryShape (pyStrip s) := by
  rw [pyStrip_eq]
  exact containsShape_dropTrailingWs (containsShape_dropWhileWs h)

/-! ### Further helper lemmas for the classifier claims -/

lemma containsShape_mem_t {s : List Char} (h : ContainsStoryShape s) : 't' ∈ s := by
  obtain ⟨p, seg, d, t, _, _, _, he⟩ := h
  rw [he]
  simp [storyLinkOcc, tmeLit]

lemma findStoryLink_none_of_plus_digit {s : List Char}
    (h : ∀ c ∈ s, c = '+' ∨ c.isDigit = true) : findStoryLink s = none := by
  cases hfs : findStoryLink s with
  | none => rfl
  | some seg =>
    exfalso
    have hshape : ContainsStoryShape s := (findStoryLink_isSome_iff s).mp (by simp [hfs])
    have hmem := containsShape_mem_t hshape
    rcases h 't' hmem with h1 | h1
    · exact absurd h1 (by decide)
    · exact absurd h1 (by decide)

lemma phone_chars {s : List Char} (h : isPhoneMatch s = true) :
    ∀ c ∈ s, c = '+' ∨ c.isDigit = true := by
  intro c hc
  unfold isPhoneMatch at h
  dsimp only at h
  split at h
  · rename_i hh
    simp only [Bool.and_eq_true, List.all_eq_true] at h
    cases s with
    | nil => cases hc
    | cons a tl =>
      simp only [List.head?_cons, Option.some.injEq] at hh
      subst hh
      rcases List.mem_cons.mp hc with rfl | hc'
      · exact Or.inl rfl
      · exact Or.inr (h.2 c hc')
  · simp only [Bool.and_eq_true, List.all_eq_true] at h
    exact Or.inr (h.2 c hc)

lemma pyStrip_eq_self {s : List Char} (h : ∀ c ∈ s, isWs c = false) : pyStrip s = s := by
  unfold pyStrip
  have h1 : s.dropWhile isWs = s := by
    cases s with
    | nil => rfl
    | cons a tl => simp [List.dropWhile_cons, h a (List.mem_cons_self a tl)]
  rw [h1]
  have h2 : s.reverse.dropWhile isWs = s.reverse := by
    cases hrev : s.reverse with
    | nil => rfl
    | cons a tl =>
      have ha : a ∈ s := by
        rw [← List.mem_reverse, hrev]
        exact List.mem_cons_self a tl
      simp [List.dropWhile_cons, h a ha]
  rw [h2, List.reverse_reverse]

lemma dropWhile_append_eq (p : Char → Bool) (l1 l2 : List Char) :
    (l1 ++ l2).dropWhile p =
      if l1.all p then l2.dropWhile p else l1.dropWhile p ++ l2 := by
  induction l1 with
  | nil => simp
  | cons a l ih =>
    by_cases ha : p a = true
    · simp only [List.cons_append, List.dropWhile_cons, ha, if_true, List.all_cons,
        Bool.true_and, ih]
    · simp only [Bool.not_eq_true] at ha
      simp [List.dropWhile_cons, List.all_cons, ha]

lemma dropTrailingWs_keeps (l : List Char) (c : Char) (hc : isWs c = false)
    (t : List Char) : ∃ t', dropTrailingWs (l ++ c :: t) = l ++ c :: t' := by
  have hrev : (l ++ c :: t).reverse = t.reverse ++ c :: l.reverse := by simp
  unfold dropTrailingWs
  rw [hrev, dropWhile_append_eq]
  by_cases hall : t.reverse.all isWs = true
  · refine ⟨[], ?_⟩
    rw [if_pos hall]
    simp [List.dropWhile_cons, hc]
  · refine ⟨(t.reverse.dropWhile isWs).reverse, ?_⟩
    rw [if_neg hall]
    simp

lemma findStoryLink_cons_some {c : Char} {cs seg : List Char}
    (h : matchStoryLinkAt (c :: cs) = some seg) :
    findStoryLink (c :: cs) = some seg := by
  simp only [findStoryLink, h]

lemma findStoryLink_occ (seg : List Char) (d : Char) (rest : List Char)
    (hseg : seg ≠ []) (hsl : ∀ c ∈ seg, c ≠ '/') (hd : d.isDigit = true) :
    findStoryLink (storyLinkOcc seg d ++ rest) = some seg := by
  have hcons : storyLinkOcc seg d ++ rest =
      't' :: ('.' :: 'm' :: 'e' :: '/' :: (seg ++ '/' :: 's' :: '/' :: d :: rest)) := by
    simp [storyLinkOcc, tmeLit, slashS]
  rw [hcons]
  apply findStoryLink_cons_some
  rw [← hcons]
  exact matchStoryLinkAt_occ seg d rest hseg hsl hd

lemma kind_of_no_link_no_at {s : List Char} (h1 : findStoryLink (pyStrip s) = none)
    (h2 : ¬ ((pyStrip s).head? = some '@')) :
    (get_entity_from_input s).1 =
      (if isPhoneMatch (pyStrip s) = true then EntityKind.phone else EntityKind.username) := by
  simp [get_entity_from_input, h1, h2, apply_ite]

/-! ## Claim C2 -/

/-- C2: for every input whose stripped form matches the phone pattern
`^\+?\d{10,15}$` (optional leading `+` then 10-15 digits), the classifier
returns kind `phone` (in particular never `username`). -/
theorem c2_phone_pattern_classifies_phone (s : List Char)
    (h : isPhoneMatch (pyStrip s) = true) :
    (get_entity_from_input s).1 = EntityKind.phone := by
  have hchars := phone_chars h
  have hnone : findStoryLink (pyStrip s) = none := findStoryLink_none_of_plus_digit hchars
  have hhead : ¬ ((pyStrip s).head? = some '@') := by
    cases hs : pyStrip s with
    | nil => simp
    | cons a tl =>
      simp only [List.head?_cons, Option.some.injEq]
      intro hA
      subst hA
      have hmem : '@' ∈ pyStrip s := by
        rw [hs]
        exact List.mem_cons_self _ _
      rcases hchars '@' hmem with h1 | h1
      · exact absurd h1 (by decide)
      · exact absurd h1 (by decide)
  rw [kind_of_no_link_no_at hnone hhead, if_pos h]

/-- Witness for C2 at the concrete input `+998901234567`. -/
theorem c2_phone_pattern_classifies_phone_witness :
    isPhoneMatch (pyStrip "+998901234567".toList) = true ∧
      (get_entity_from_input "+998901234567".toList).1 = EntityKind.phone :=
  ⟨by decide, c2_phone_pattern_classifies_phone "+998901234567".toList (by decide)⟩

/-! ## Claim C3 -/

/-- C3 counterexample: the input `example.com/durov/s/123?single` has the
claimed shape `domain/name/s/123` with a query-string suffix, but the code
only recognizes the literal `t.me` host, so it is classified `username`,
not `direct_link`. -/
theorem c3_counterexample :
    get_entity_from_input "example.com/durov/s/123?single".toList =
      (EntityKind.username, "example.com/durov/s/123?single".toList) := by decide

/-- C3 (amended): for a permalink on the platform domain `t.me` — i.e. input
`t.me/<name>/s/<digit><suffix>` where the suffix covers any further story-id
digits and any query-string suffix — classification is `direct_link` and the
`name` component is the resolution key. -/
theorem c3_amended_tme_permalink (name : List Char) (d : Char) (suffix : List Char)
    (hn : name ≠ []) (hsl : ∀ c ∈ name, c ≠ '/') (hd : d.isDigit = true) :
    get_entity_from_input (tmeLit ++ name ++ slashS ++ d :: suffix) =
      (EntityKind.direct_link, name) := by
  have hX : tmeLit ++ name ++ slashS ++ d :: suffix =
      't' :: ('.' :: 'm' :: 'e' :: '/' :: (name ++ slashS ++ d :: suffix)) := by
    simp [tmeLit, slashS]
  have hd1 : (tmeLit ++ name ++ slashS ++ d :: suffix).dropWhile isWs =
      tmeLit ++ name ++ slashS ++ d :: suffix := by
    rw [hX, List.dropWhile_cons, if_neg (by decide)]
  obtain ⟨t', ht'⟩ :=
    dropTrailingWs_keeps (tmeLit ++ name ++ slashS) d (isDigit_isWs_false hd) suffix
  have hstrip : pyStrip (tmeLit ++ name ++ slashS ++ d :: suffix) =
      (tmeLit ++ name ++ slashS) ++ d :: t' := by
    rw [pyStrip_eq, hd1]
    exact ht'
  have hkey : findStoryLink (pyStrip (tmeLit ++ name ++ slashS ++ d :: suffix)) =
      some name := by
    rw [hstrip]
    have hocc : (tmeLit ++ name ++ slashS) ++ d :: t' = storyLinkOcc name d ++ t' := by
      simp [storyLinkOcc]
    rw [hocc]
    exact findStoryLink_occ name d t' hn hsl hd
  unfold get_entity_from_input
  dsimp only
  rw [hkey]

/-- Witness for the amended C3 at the concrete input `t.me/durov/s/123?single`. -/
theorem c3_amended_tme_permalink_witness :
    get_entity_from_input (tmeLit ++ "durov".toList ++ slashS ++ '1' :: "23?single".toList) =
      (EntityKind.direct_link, "durov".toList) :=
  c3_amended_tme_permalink "durov".toList '1' "23?single".toList
    (by decide) (by decide) (by decide)

/-! ## Claim C4 -/

/-- C4 counterexample: `12345` is a bare numeric-looking string (digits only,
no permalink, no leading `@`), yet classification yields kind `username`,
because the phone pattern requires 10-15 digits. -/
theorem c4_counterexample :
    get_entity_from_input "12345".toList =
      (EntityKind.username, "12345".toList) := by decide

/-- C4 (amended): a bare numeric-looking string (digits `ds` with an optional
leading `+`) is classified `phone` when it has 10-15 digits and falls through
to the `username` rules otherwise; it is never classified `direct_link`. -/
theorem c4_amended_numeric_classification (ds s : List Char) (hne : ds ≠ [])
    (hdig : ∀ c ∈ ds, c.isDigit = true) (hs : s = ds ∨ s = '+' :: ds) :
    (get_entity_from_input s).1 =
      (if 10 ≤ ds.length ∧ ds.length ≤ 15 then EntityKind.phone
       else EntityKind.username) := by
  have hnonwsds : ∀ c ∈ ds, isWs c = false := fun c hc => isDigit_isWs_false (hdig c hc)
  obtain ⟨a, tl, rfl⟩ : ∃ a tl, ds = a :: tl := by
    cases ds with
    | nil => exact absurd rfl hne
    | cons a tl => exact ⟨a, tl, rfl⟩
  have haP : a ≠ '+' := by
    intro hEq
    have hq := hdig a (List.mem_cons_self a tl)
    rw [hEq] at hq
    exact absurd hq (by decide)
  rcases hs with rfl | rfl
  · have hchars : ∀ c ∈ a :: tl, c = '+' ∨ c.isDigit = true :=
      fun c hc => Or.inr (hdig c hc)
    have hstrip : pyStrip (a :: tl) = a :: tl := pyStrip_eq_self hnonwsds
    have hnone : findStoryLink (pyStrip (a :: tl)) = none := by
      rw [hstrip]
      exact findStoryLink_none_of_plus_digit hchars
    have haA : a ≠ '@' := by
      intro hEq
      have hq := hdig a (List.mem_cons_self a tl)
      rw [hEq] at hq
      exact absurd hq (by decide)
    have hhead : ¬ ((pyStrip (a :: tl)).head? = some '@') := by
      rw [hstrip]
      simp [haA]
    have hall : (a :: tl).all Char.isDigit = true := List.all_eq_true.mpr hdig
    have hplusne : ¬ ((a :: tl).head? = some '+') := by simp [haP]
    have hcond : isPhoneMatch (pyStrip (a :: tl)) = true ↔
        (10 ≤ (a :: tl).length ∧ (a :: tl).length ≤ 15) := by
      have htl : ∀ c ∈ tl, c.isDigit = true :=
        fun c hc => hdig c (List.mem_cons_of_mem a hc)
      rw [hstrip]
      simp [isPhoneMatch, haP, hdig]
      exact fun _ _ => htl
    rw [kind_of_no_link_no_at hnone hhead]
    by_cases hin : 10 ≤ (a :: tl).length ∧ (a :: tl).length ≤ 15
    · rw [if_pos (hcond.mpr hin), if_pos hin]
    · rw [if_neg (fun hx => hin (hcond.mp hx)), if_neg hin]
  · have hchars : ∀ c ∈ '+' :: a :: tl, c = '+' ∨ c.isDigit = true := by
      intro c hc
      rcases List.mem_cons.mp hc with rfl | hc'
      · exact Or.inl rfl
      · exact Or.inr (hdig c hc')
    have hnonws : ∀ c ∈ '+' :: a :: tl, isWs c = false := by
      intro c hc
      rcases List.mem_cons.mp hc with rfl | hc'
      · decide
      · exact hnonwsds c hc'
    have hstrip : pyStrip ('+' :: a :: tl) = '+' :: a :: tl := pyStrip_eq_self hnonws
    have hnone : findStoryLink (pyStrip ('+' :: a :: tl)) = none := by
      rw [hstrip]
      exact findStoryLink_none_of_plus_digit hchars
    have hhead : ¬ ((pyStrip ('+' :: a :: tl)).head? = some '@') := by
      rw [hstrip]
      simp
    have hall : (a :: tl).all Char.isDigit = true := List.all_eq_true.mpr hdig
    have hcond : isPhoneMatch (pyStrip ('+' :: a :: tl)) = true ↔
        (10 ≤ (a :: tl).length ∧ (a :: tl).length ≤ 15) := by
      have htl : ∀ c ∈ tl, c.isDigit = true :=
        fun c hc => hdig c (List.mem_cons_of_mem a hc)
      rw [hstrip]
      simp [isPhoneMatch, hdig]
      exact fun _ _ => htl
    rw [kind_of_no_link_no_at hnone hhead]
    by_cases hin : 10 ≤ (a :: tl).length ∧ (a :: tl).length ≤ 15
    · rw [if_pos (hcond.mpr hin), if_pos hin]
    · rw [if_neg (fun hx => hin (hcond.mp hx)), if_neg hin]

/-- Witness for the amended C4: `+123456789012` (12 digits) classifies as
`phone`. -/
theorem c4_amended_numeric_classification_witness :
    (get_entity_from_input ('+' :: "123456789012".toList)).1 =
      (if 10 ≤ "123456789012".toList.length ∧ "123456789012".toList.length ≤ 15
       then EntityKind.phone else EntityKind.username) :=
  c4_amended_numeric_classification "123456789012".toList ('+' :: "123456789012".toList)
    (by decide) (by decide) (Or.inr rfl)

/-! ## Claim C10 -/

/-- C10 counterexample: the permalink `xt.me/durov/s/123` is on the domain
`xt.me`, not `t.me`, yet it is classified `direct_link` (the regex search
finds the substring `t.me/durov/s/123`), contradicting the claim that a
permalink on any other domain never classifies as `direct_link`. -/
theorem c10_counterexample :
    get_entity_from_input "xt.me/durov/s/123".toList =
      (EntityKind.direct_link, "durov".toList) := by decide

/-- C10 (amended): classification takes the direct-link branch exactly when
the input contains, anywhere, a substring of the shape
`t.me/<segment>/s/<digit>`; in particular every input containing such a
substring is classified `direct_link`, and a permalink on another domain
falls through to the username rules unless it embeds such a substring
(e.g. a domain ending in `t.me`). -/
theorem c10_direct_link_iff_contains_shape (s : List Char) :
    (get_entity_from_input s).1 = EntityKind.direct_link ↔ ContainsStoryShape s := by
  constructor
  · intro h
    cases hm : findStoryLink (pyStrip s) with
    | some seg =>
      have hsome : (findStoryLink (pyStrip s)).isSome = true := by simp [hm]
      exact containsShape_of_strip ((findStoryLink_isSome_iff _).mp hsome)
    | none =>
      exfalso
      by_cases hA : (pyStrip s).head? = some '@'
      · simp [get_entity_from_input, hm, hA] at h
      · by_cases hph : isPhoneMatch (pyStrip s) = true
        · simp [get_entity_from_input, hm, hA, hph] at h
        · simp [get_entity_from_input, hm, hA, hph] at h
  · intro h
    have hsh : ContainsStoryShape (pyStrip s) := containsShape_strip h
    have hsome : (findStoryLink (pyStrip s)).isSome = true :=
      (findStoryLink_isSome_iff _).mpr hsh
    obtain ⟨seg, hseg⟩ := Option.isSome_iff_exists.mp hsome
    simp [get_entity_from_input, hseg]

/-! ## Story retrieval and download engine
(`StoriesDownloader.download_stories`, bot.py:282-357)

The two Telethon fetches are modelled by the upstream `active` and `pinned`
story collections given as lists (the pinned request carries
`limit = remaining`, modelled by taking the first `remaining` entries), and
`userbot.download_media` is modelled by a function from a story to a
download result. -/

/-- The attribute shape of a media payload that the code inspects:
`hasattr(story.media, 'video')` / `hasattr(story.media, 'document')`. -/
structure MediaObj where
  video : Bool
  document : Bool
deriving DecidableEq, Repr

/-- One story entry of an upstream stories collection: its id and its
optional media payload (`hasattr(story, 'media') and story.media`). -/
structure StoryObj where
  id : Nat
  media : Option MediaObj
deriving DecidableEq, Repr

/-- The `'active'` / `'pinned'` source tag stored in `all_stories`. -/
inductive StoryCat
  | active
  | pinned
deriving DecidableEq, Repr

/-- The `'photo'` / `'video'` inferred media type. -/
inductive MediaKind
  | photo
  | video
deriving DecidableEq, Repr

/-- Result of one `userbot.download_media(story.media, file=bytes)` call:
a returned buffer (possibly empty, which Python treats as falsy), a
`FloodWaitError` carrying its wait seconds, or any other exception. -/
inductive DLResult
  | ok (buf : List Nat)
  | floodWait (seconds : Nat)
  | err
deriving DecidableEq, Repr

/-- `hasattr(story, 'media') and story.media`. -/
def hasMedia (s : StoryObj) : Bool := s.media.isSome

/-- Media-type inference: `'video'` if the payload has a `video` attribute,
`'video'` again if it has a `document` attribute, `'photo'` otherwise. -/
def inferMediaKind : Option MediaObj → MediaKind
  | some m =>
    if m.video then MediaKind.video
    else if m.document then MediaKind.video
    else MediaKind.photo
  | none => MediaKind.photo

/-- One entry of the `downloaded` result list. -/
structure DownloadedStory where
  buffer : List Nat
  media_type : MediaKind
  story_type : StoryCat
  story_id : Nat
deriving DecidableEq, Repr

/-- The `all_stories` collection phase of `download_stories`: slice the
active stories to `max_stories` and keep the media-bearing ones (tagged
`active`); then, if budget remains, fetch pinned stories with
`limit = remaining` (the upstream returns at most `remaining` entries,
modelled as `pinned.take remaining`) and keep the media-bearing ones
(tagged `pinned`).  Note the slice happens before the media filter. -/
def collectStories (maxStories : Nat) (active pinned : List StoryObj) :
    List (StoryObj × StoryCat) :=
  let act := ((active.take maxStories).filter hasMedia).map
    (fun s => (s, StoryCat.active))
  let remaining := maxStories - act.length
  let pin :=
    if 0 < remaining then
      ((pinned.take remaining).filter hasMedia).map (fun s => (s, StoryCat.pinned))
    else []
  act ++ pin

/-- Events observable in the download loop: a download attempt for a story
id, the fixed `flood_wait_delay` pause taken after a non-raising attempt,
and the `FloodWaitError` sleep of the prescribed number of seconds. -/
inductive DLEvent
  | attempt (story_id : Nat)
  | sleepDelay
  | sleepFlood (seconds : Nat)
deriving DecidableEq, Repr

/-- The per-item download loop of `download_stories`: try each collected
story in order; a truthy buffer appends a `DownloadedStory` and is followed
by the `flood_wait_delay` pause; a falsy buffer appends nothing but still
pauses; `FloodWaitError e` sleeps `e.seconds`; any other exception skips
the item.  Returns the event trace together with the `downloaded` list. -/
def downloadLoop (dl : StoryObj → DLResult) :
    List (StoryObj × StoryCat) → List DLEvent × List DownloadedStory
  | [] => ([], [])
  | (s, cat) :: rest =>
    let r := downloadLoop dl rest
    match dl s with
    | DLResult.ok buf =>
      if buf = [] then (DLEvent.attempt s.id :: DLEvent.sleepDelay :: r.1, r.2)
      else (DLEvent.attempt s.id :: DLEvent.sleepDelay :: r.1,
        ⟨buf, inferMediaKind s.media, cat, s.id⟩ :: r.2)
    | DLResult.floodWait w =>
      (DLEvent.attempt s.id :: DLEvent.sleepFlood w :: r.1, r.2)
    | DLResult.err => (DLEvent.attempt s.id :: r.1, r.2)

/-- `download_stories`: collect both categories, then (unless nothing was
collected, in which case the function returns `[]` early) run the download
loop and return the `downloaded` list. -/
def download_stories (maxStories : Nat) (active pinned : List StoryObj)
    (dl : StoryObj → DLResult) : List DownloadedStory :=
  let all := collectStories maxStories active pinned
  if all = [] then [] else (downloadLoop dl all).2

/-- The attempt/sleep trace of the same `download_stories` call. -/
def download_stories_events (maxStories : Nat) (active pinned : List StoryObj)
    (dl : StoryObj → DLResult) : List DLEvent :=
  let all := collectStories maxStories active pinned
  if all = [] then [] else (downloadLoop dl all).1

/-- A download attempt succeeds when it returns a truthy (nonempty)
buffer. -/
def dlOk (dl : StoryObj → DLResult) (s : StoryObj) : Bool :=
  match dl s with
  | DLResult.ok buf => !buf.isEmpty
  | _ => false

lemma download_stories_eq_loop (maxStories : Nat) (active pinned : List StoryObj)
    (dl : StoryObj → DLResult) :
    download_stories maxStories active pinned dl =
      (downloadLoop dl (collectStories maxStories active pinned)).2 := by
  unfold download_stories
  dsimp only
  by_cases h : collectStories maxStories active pinned = []
  · rw [if_pos h, h]
    rfl
  · rw [if_neg h]

lemma downloadLoop_snd (dl : StoryObj → DLResult) (items : List (StoryObj × StoryCat)) :
    (downloadLoop dl items).2 = items.filterMap (fun sc =>
      match dl sc.1 with
      | DLResult.ok buf =>
        if buf = [] then none
        else some ⟨buf, inferMediaKind sc.1.media, sc.2, sc.1.id⟩
      | _ => none) := by
  induction items with
  | nil => rfl
  | cons sc rest ih =>
    obtain ⟨s, cat⟩ := sc
    simp only [downloadLoop, List.filterMap_cons]
    cases hdl : dl s with
    | ok buf =>
      by_cases hb : buf = []
      · simp [hdl, hb, ih]
      · simp [hdl, hb, ih]
    | floodWait w => simp [hdl, ih]
    | err => simp [hdl, ih]

lemma downloadLoop_length (dl : StoryObj → DLResult) (items : List (StoryObj × StoryCat)) :
    (downloadLoop dl items).2.length = items.countP (fun sc => dlOk dl sc.1) := by
  induction items with
  | nil => rfl
  | cons sc rest ih =>
    obtain ⟨s, cat⟩ := sc
    simp only [downloadLoop, List.countP_cons]
    cases hdl : dl s with
    | ok buf =>
      by_cases hb : buf = []
      · simp [hdl, hb, ih, dlOk]
      · simp [hdl, hb, ih, dlOk]
    | floodWait w => simp [hdl, ih, dlOk]
    | err => simp [hdl, ih, dlOk]

lemma countP_add_countP_not {α : Type} (p : α → Bool) (l : List α) :
    l.countP p + l.countP (fun a => !(p a)) = l.length := by
  induction l with
  | nil => rfl
  | cons a l ih =>
    by_cases h : p a = true <;> simp [List.countP_cons, h, ← ih] <;> omega

lemma collectStories_eq (C : Nat) (active pinned : List StoryObj) :
    collectStories C active pinned =
      ((active.take C).filter hasMedia).map (fun s => (s, StoryCat.active)) ++
      ((pinned.take (C - ((active.take C).filter hasMedia).length)).filter
        hasMedia).map (fun s => (s, StoryCat.pinned)) := by
  unfold collectStories
  dsimp only
  rw [List.length_map]
  by_cases h : 0 < C - ((active.take C).filter hasMedia).length
  · rw [if_pos h]
  · rw [if_neg h]
    have h0 : C - ((active.take C).filter hasMedia).length = 0 := by omega
    rw [h0]
    simp

lemma downloadLoop_snd_all_ok (dl : StoryObj → DLResult) (bf : StoryObj → List Nat)
    (hdl : ∀ s, dl s = DLResult.ok (bf s)) (hbf : ∀ s, bf s ≠ [])
    (items : List (StoryObj × StoryCat)) :
    (downloadLoop dl items).2 = items.map
      (fun sc => ⟨bf sc.1, inferMediaKind sc.1.media, sc.2, sc.1.id⟩) := by
  induction items with
  | nil => rfl
  | cons sc rest ih =>
    obtain ⟨s, cat⟩ := sc
    simp only [downloadLoop, hdl s, List.map_cons]
    rw [if_neg (hbf s)]
    simp [ih]

/-! ## Claim C1 -/

/-- C1 counterexample: with cap C = 1 and active stories
`[{no media}, {media}]`, there is N = 1 media-bearing active story, so the
claim demands min(N, C) = 1 active-tagged result item; but the code slices
to the cap BEFORE filtering for media, so the one sliced entry is the
media-less one and the result is empty. -/
theorem c1_counterexample :
    ([⟨0, none⟩, ⟨1, some ⟨false, false⟩⟩] : List StoryObj).countP hasMedia = 1 ∧
      download_stories 1 [⟨0, none⟩, ⟨1, some ⟨false, false⟩⟩] []
        (fun _ => DLResult.ok [7]) = [] := by decide

/-- C1 (amended): the active fetch is first truncated to the cap and then
filtered to media-bearing entries.  With every download succeeding,
`download_stories` returns exactly the media-bearing entries among the
first C active stories tagged `active`, followed by the media-bearing
entries among the first (C − activeCount) pinned stories tagged `pinned`;
the total never exceeds C; and when every fetched story is media-bearing
the counts are min(N, C) active and min(M, C − min(N, C)) pinned. -/
theorem c1_amended_truncate_then_filter (C : Nat) (active pinned : List StoryObj)
    (bf : StoryObj → List Nat) (dl : StoryObj → DLResult)
    (hdl : ∀ s, dl s = DLResult.ok (bf s)) (hbf : ∀ s, bf s ≠ []) :
    download_stories C active pinned dl =
      ((active.take C).filter hasMedia).map
        (fun s => ⟨bf s, inferMediaKind s.media, StoryCat.active, s.id⟩) ++
      ((pinned.take (C - ((active.take C).filter hasMedia).length)).filter
        hasMedia).map
        (fun s => ⟨bf s, inferMediaKind s.media, StoryCat.pinned, s.id⟩) ∧
    (download_stories C active pinned dl).length ≤ C ∧
    ((∀ s ∈ active, hasMedia s = true) → (∀ s ∈ pinned, hasMedia s = true) →
      (download_stories C active pinned dl).length =
        min active.length C + min pinned.length (C - min active.length C)) := by
  have h1 : download_stories C active pinned dl =
      ((active.take C).filter hasMedia).map
        (fun s => ⟨bf s, inferMediaKind s.media, StoryCat.active, s.id⟩) ++
      ((pinned.take (C - ((active.take C).filter hasMedia).length)).filter
        hasMedia).map
        (fun s => ⟨bf s, inferMediaKind s.media, StoryCat.pinned, s.id⟩) := by
    rw [download_stories_eq_loop, downloadLoop_snd_all_ok dl bf hdl hbf,
      collectStories_eq, List.map_append]
    simp only [List.map_map]
    rfl
  have hA : ((active.take C).filter hasMedia).length ≤ C :=
    le_trans (List.length_filter_le _ _) (by simp)
  have hP : ((pinned.take (C - ((active.take C).filter hasMedia).length)).filter
      hasMedia).length ≤ C - ((active.take C).filter hasMedia).length :=
    le_trans (List.length_filter_le _ _) (by simp)
  refine ⟨h1, ?_, ?_⟩
  · rw [h1, List.length_append, List.length_map, List.length_map]
    omega
  · intro hact hpin
    have hAf : (active.take C).filter hasMedia = active.take C :=
      List.filter_eq_self.mpr (fun s hs => hact s (List.mem_of_mem_take hs))
    have hPf : (pinned.take (C - ((active.take C).filter hasMedia).length)).filter
        hasMedia = pinned.take (C - ((active.take C).filter hasMedia).length) :=
      List.filter_eq_self.mpr (fun s hs => hpin s (List.mem_of_mem_take hs))
    rw [h1, List.length_append, List.length_map, List.length_map, hPf, hAf,
      List.length_take, List.length_take]
    omega

def c1Act : List StoryObj :=
  [⟨0, some ⟨false, false⟩⟩, ⟨1, none⟩, ⟨2, some ⟨false, false⟩⟩]

def c1Pin : List StoryObj := [⟨3, some ⟨true, false⟩⟩, ⟨4, some ⟨false, false⟩⟩]

def c1bf : StoryObj → List Nat := fun s => [s.id + 1]

def c1dl : StoryObj → DLResult := fun s => DLResult.ok (c1bf s)

/-- Witness for the amended C1: cap 2, three active stories of which the
second has no media, two pinned stories; the result is one active-tagged
and one pinned-tagged item, total 2 ≤ 2. -/
theorem c1_amended_truncate_then_filter_witness :
    download_stories 2 c1Act c1Pin c1dl =
      [⟨[1], MediaKind.photo, StoryCat.active, 0⟩,
       ⟨[4], MediaKind.video, StoryCat.pinned, 3⟩] ∧
      (download_stories 2 c1Act c1Pin c1dl).length ≤ 2 := by
  have h := c1_amended_truncate_then_filter 2 c1Act c1Pin c1bf c1dl
    (fun s => rfl) (fun s => by simp [c1bf])
  exact ⟨h.1.trans (by decide), h.2.1⟩

/-! ## Claim C5 -/

/-- C5: per-item download failures (an exception or a falsy buffer) are
swallowed and the item is excluded, never aborting the batch:
`download_stories` equals the filter-map keeping exactly the successfully
downloaded items of the collected batch (in order), and its length is the
batch size minus the number of failing items; the function is total, so
the call itself never fails. -/
theorem c5_per_item_failures_swallowed (maxStories : Nat)
    (active pinned : List StoryObj) (dl : StoryObj → DLResult) :
    download_stories maxStories active pinned dl =
      (collectStories maxStories active pinned).filterMap (fun sc =>
        match dl sc.1 with
        | DLResult.ok buf =>
          if buf = [] then none
          else some ⟨buf, inferMediaKind sc.1.media, sc.2, sc.1.id⟩
        | _ => none) ∧
    (download_stories maxStories active pinned dl).length =
      (collectStories maxStories active pinned).length -
        (collectStories maxStories active pinned).countP
          (fun sc => !(dlOk dl sc.1)) := by
  constructor
  · rw [download_stories_eq_loop, downloadLoop_snd]
  · rw [download_stories_eq_loop, downloadLoop_length]
    have hc := countP_add_countP_not (fun sc => dlOk dl sc.1)
      (collectStories maxStories active pinned)
    omega

/-! ## Claim C6 -/

lemma downloadLoop_fst_append (dl : StoryObj → DLResult)
    (pre post : List (StoryObj × StoryCat)) (s : StoryObj) (cat : StoryCat)
    (w : Nat) (hdl : dl s = DLResult.floodWait w) :
    (downloadLoop dl (pre ++ (s, cat) :: post)).1 =
      (downloadLoop dl pre).1 ++
        DLEvent.attempt s.id :: DLEvent.sleepFlood w :: (downloadLoop dl post).1 := by
  induction pre with
  | nil => simp [downloadLoop, hdl]
  | cons q qre ih =>
    obtain ⟨qs, qc⟩ := q
    simp only [List.cons_append, downloadLoop]
    cases hq : dl qs with
    | ok buf =>
      by_cases hb : buf = [] <;> simp [hq, hb, ih]
    | floodWait w' => simp [hq, ih]
    | err => simp [hq, ih]

/-- C6: when the download of a collected story raises `FloodWaitError` with
wait `w`, the engine sleeps exactly `w` seconds immediately after that
attempt and before any further download attempt in the same call: the event
trace decomposes around that item into the trace of the earlier items, the
attempt followed by the `w`-second sleep, and the trace of the later
items.  (The call is not aborted: the remaining items are still attempted.) -/
theorem c6_floodwait_sleeps_exact_duration (maxStories : Nat)
    (active pinned : List StoryObj) (dl : StoryObj → DLResult)
    (pre post : List (StoryObj × StoryCat)) (s : StoryObj) (cat : StoryCat)
    (w : Nat)
    (hcollect : collectStories maxStories active pinned = pre ++ (s, cat) :: post)
    (hdl : dl s = DLResult.floodWait w) :
    download_stories_events maxStories active pinned dl =
      (downloadLoop dl pre).1 ++
        DLEvent.attempt s.id :: DLEvent.sleepFlood w :: (downloadLoop dl post).1 := by
  unfold download_stories_events
  dsimp only
  rw [hcollect, if_neg (by simp)]
  exact downloadLoop_fst_append dl pre post s cat w hdl

def c6Story (n : Nat) : StoryObj := ⟨n, some ⟨false, false⟩⟩

def c6dl : StoryObj → DLResult :=
  fun s => if s.id = 1 then DLResult.floodWait 4 else DLResult.ok [9]

/-- Witness for C6: in a three-story batch whose middle download raises
`FloodWaitError 4`, the trace sleeps exactly 4 seconds after the second
attempt and before the third. -/
theorem c6_floodwait_sleeps_exact_duration_witness :
    download_stories_events 3 [c6Story 0, c6Story 1, c6Story 2] [] c6dl =
      (downloadLoop c6dl [(c6Story 0, StoryCat.active)]).1 ++
        DLEvent.attempt 1 :: DLEvent.sleepFlood 4 ::
          (downloadLoop c6dl [(c6Story 2, StoryCat.active)]).1 :=
  c6_floodwait_sleeps_exact_duration 3 [c6Story 0, c6Story 1, c6Story 2] [] c6dl
    [(c6Story 0, StoryCat.active)] [(c6Story 2, StoryCat.active)]
    (c6Story 1) StoryCat.active 4 (by decide) (by decide)

/-! ## Persistence gateway (`DatabaseManager.update_daily_stats`, bot.py:200-222)

Rows are modelled with exactly the fields the daily-statistics aggregates
read; the SQL `CURRENT_DATE` is passed explicitly as `today` and dates are
abstract numbers. -/

/-- A `users` row, reduced to the `last_active::date` value read by the
aggregates. -/
structure UserRow where
  last_active_date : Nat
deriving DecidableEq, Repr

/-- A `requests` row, reduced to the fields read by the aggregates. -/
structure RequestRow where
  created_date : Nat
  success : Bool
  stories_count : Nat
deriving DecidableEq, Repr

/-- A `statistics` row (the `UNIQUE (date)` column plus the six aggregate
columns). -/
structure StatRow where
  date : Nat
  total_users : Nat
  active_users : Nat
  total_requests : Nat
  successful_requests : Nat
  failed_requests : Nat
  total_stories : Nat
deriving DecidableEq, Repr

/-- The three tables. -/
structure DBState where
  users : List UserRow
  requests : List RequestRow
  statistics : List StatRow
deriving DecidableEq, Repr

/-- The SELECT of `update_daily_stats`: full aggregates over all users and
over the requests created today (`COALESCE(SUM(...), 0)` is the sum of an
empty list). -/
def dailyAgg (today : Nat) (db : DBState) : StatRow :=
  ⟨today,
    db.users.length,
    (db.users.filter (fun u => u.last_active_date == today)).length,
    (db.requests.filter (fun r => r.created_date == today)).length,
    (db.requests.filter (fun r => r.created_date == today && r.success)).length,
    (db.requests.filter (fun r => r.created_date == today && !r.success)).length,
    ((db.requests.filter (fun r => r.created_date == today)).map
      (fun r => r.stories_count)).sum⟩

/-- `DatabaseManager.update_daily_stats`: `INSERT ... ON CONFLICT (date) DO
UPDATE` — if a row for today exists, overwrite its aggregate columns with
the freshly computed values, otherwise append a new row. -/
def update_daily_stats (today : Nat) (db : DBState) : DBState :=
  if db.statistics.any (fun r => r.date == today) then
    ⟨db.users, db.requests,
      db.statistics.map (fun r => if r.date == today then dailyAgg today db else r)⟩
  else
    ⟨db.users, db.requests, db.statistics ++ [dailyAgg today db]⟩

lemma countP_upsert_map (today d : Nat) (agg : StatRow) (hagg : agg.date = today)
    (l : List StatRow) :
    (l.map (fun r => if r.date == today then agg else r)).countP
      (fun r => r.date == d) = l.countP (fun r => r.date == d) := by
  rw [List.countP_map]
  apply List.countP_congr
  intro r hr
  by_cases hrd : r.date = today
  · simp [Function.comp, hrd, hagg]
  · simp [Function.comp, hrd]

/-! ## Claim C7 -/

/-- C7: under the `UNIQUE (date)` invariant (at most one statistics row per
date), one recomputation of the daily statistics leaves exactly one row for
today, whose values are the full aggregates over all users and today's
request rows at that moment; the other tables are untouched, and the
invariant is preserved for every date — so recomputing any number of times
keeps exactly one row for the date, carrying the aggregates of the latest
recomputation. -/
theorem c7_daily_stats_upsert_unique (db : DBState) (today : Nat)
    (h : ∀ d, db.statistics.countP (fun r => r.date == d) ≤ 1) :
    (update_daily_stats today db).users = db.users ∧
    (update_daily_stats today db).requests = db.requests ∧
    (update_daily_stats today db).statistics.countP (fun r => r.date == today) = 1 ∧
    (∀ r ∈ (update_daily_stats today db).statistics, r.date = today →
      r = dailyAgg today db) ∧
    (∀ d, (update_daily_stats today db).statistics.countP
      (fun r => r.date == d) ≤ 1) := by
  unfold update_daily_stats
  by_cases hany : db.statistics.any (fun r => r.date == today) = true
  · rw [if_pos hany]
    have hpos : 0 < db.statistics.countP (fun r => r.date == today) := by
      rw [List.countP_pos_iff]
      simpa using List.any_eq_true.mp hany
    have hone : db.statistics.countP (fun r => r.date == today) = 1 := by
      have := h today
      omega
    refine ⟨rfl, rfl, ?_, ?_, ?_⟩
    · rw [countP_upsert_map today today (dailyAgg today db) rfl]
      exact hone
    · intro r hr hrd
      obtain ⟨x, hx, hfx⟩ := List.mem_map.mp hr
      by_cases hxd : x.date = today
      · rw [← hfx]
        simp [hxd]
      · rw [← hfx] at hrd
        simp [hxd] at hrd
    · intro d
      rw [countP_upsert_map today d (dailyAgg today db) rfl]
      exact h d
  · rw [if_neg hany]
    have hnone : ∀ r ∈ db.statistics, ¬ (r.date = today) := by
      intro r hr hEq
      exact hany (List.any_eq_true.mpr ⟨r, hr, by simp [hEq]⟩)
    have hzero : db.statistics.countP (fun r => r.date == today) = 0 := by
      rw [List.countP_eq_zero]
      intro r hr
      simp [hnone r hr]
    refine ⟨rfl, rfl, ?_, ?_, ?_⟩
    · rw [List.countP_append, hzero]
      simp [List.countP_cons, dailyAgg]
    · intro r hr hrd
      rcases List.mem_append.mp hr with hin | hin
      · exact absurd hrd (hnone r hin)
      · simpa using hin
    · intro d
      rw [List.countP_append]
      by_cases hdt : d = today
      · subst hdt
        rw [hzero]
        simp [List.countP_cons, dailyAgg]
      · have h1 := h d
        have hne2 : today ≠ d := fun hEq => hdt hEq.symm
        have h2 : ([dailyAgg today db] : List StatRow).countP
            (fun r => r.date == d) = 0 := by
          simp [List.countP_cons, dailyAgg, hne2]
        omega

/-- A small concrete database: two users, three requests (two today), no
statistics rows yet. -/
def c7db : DBState :=
  ⟨[⟨5⟩, ⟨3⟩], [⟨5, true, 4⟩, ⟨5, false, 0⟩, ⟨4, true, 2⟩], []⟩

/-- Witness for C7 at the concrete database `c7db` and date 5. -/
theorem c7_daily_stats_upsert_unique_witness :
    (update_daily_stats 5 c7db).statistics.countP (fun r => r.date == 5) = 1 :=
  (c7_daily_stats_upsert_unique c7db 5 (fun d => by simp [c7db])).2.2.1

/-! ## Configuration loader (`config.py`)

`os.getenv` is modelled by a record of optional strings; each uncaught
`ValueError` raise site of `config.py` becomes one `LoadError`
constructor. -/

/-- Numeric value of a decimal digit string (most significant first). -/
def digitsToNat (ds : List Char) : Nat :=
  ds.foldl (fun a c => a * 10 + (c.toNat - 48)) 0

/-- Python `int(s)` on the decimal strings that occur in configuration:
optional surrounding whitespace, optional sign, then at least one digit
(Python's underscore-separator extension is not modelled). -/
def pyIntChars (cs : List Char) : Option Int :=
  match pyStrip cs with
  | '+' :: ds =>
    if !ds.isEmpty && ds.all Char.isDigit then some (digitsToNat ds) else none
  | '-' :: ds =>
    if !ds.isEmpty && ds.all Char.isDigit then some (-(digitsToNat ds : Int)) else none
  | ds =>
    if !ds.isEmpty && ds.all Char.isDigit then some (digitsToNat ds) else none

def pyInt (s : String) : Option Int := pyIntChars s.toList

/-- The exact value of a parsed decimal float literal: sign, numerator and
power-of-ten denominator, kept unreduced. -/
structure PyFloat where
  neg : Bool
  num : Nat
  den : Nat
deriving DecidableEq, Repr

/-- Python `float(s)` on the decimal literals that occur in configuration:
optional surrounding whitespace, optional sign, integer digits, optional
`.` and fraction digits, at least one digit in total (exponents and the
special forms are not modelled). -/
def pyFloat (s : String) : Option PyFloat :=
  let t := pyStrip s.toList
  let core := match t with
    | '+' :: r => r
    | '-' :: r => r
    | r => r
  let sgn : Bool := decide (t.head? = some '-')
  match core.splitOn '.' with
  | [ip] =>
    if !ip.isEmpty && ip.all Char.isDigit then some ⟨sgn, digitsToNat ip, 1⟩
    else none
  | [ip, fp] =>
    if (ip.all Char.isDigit && fp.all Char.isDigit) && !(ip.isEmpty && fp.isEmpty) then
      some ⟨sgn, digitsToNat ip * 10 ^ fp.length + digitsToNat fp, 10 ^ fp.length⟩
    else none
  | _ => none

/-- The process environment: the `os.getenv` values of every variable read
by `config.py` (`none` = unset). -/
structure PyEnv where
  BOT_TOKEN : Option String
  ADMIN_IDS : Option String
  USERBOT_API_ID : Option String
  USERBOT_API_HASH : Option String
  USERBOT_PHONE : Option String
  USERBOT_SESSION : Option String
  DB_HOST : Option String
  DB_PORT : Option String
  DB_NAME : Option String
  DB_USER : Option String
  DB_PASS : Option String
  DB_MIN_POOL_SIZE : Option String
  DB_MAX_POOL_SIZE : Option String
  DEBUG : Option String
  LOG_LEVEL : Option String
  MAX_STORIES_PER_REQUEST : Option String
  REQUEST_TIMEOUT : Option String
  FLOOD_WAIT_DELAY : Option String
deriving DecidableEq, Repr

/-- The distinct failure modes of configuration loading: one constructor
per uncaught `ValueError` raise site of `config.py`, plus the enumerated
validation failure raised by `Config.validate`. -/
inductive LoadError
  | botTokenMissing
  | adminIdsInvalid
  | userbotMissing
  | intInvalid (varName : String)
  | floatInvalid (varName : String)
  | validationFailed (errs : List String)
deriving DecidableEq, Repr

structure BotConfig where
  token : String
  admin_ids : List Int
deriving DecidableEq, Repr

/-- `[int(id.strip()) for id in admin_ids_str.split(',') if id.strip()]`. -/
def parseAdminIds (s : String) : Option (List Int) :=
  (((s.toList.splitOn ',').map pyStrip).filter (fun p => !p.isEmpty)).mapM pyIntChars

/-- `BotConfig.from_env`: a missing or empty `BOT_TOKEN` raises
immediately; `ADMIN_IDS` defaults to the empty string. -/
def botConfig_from_env (env : PyEnv) : Except LoadError BotConfig :=
  match env.BOT_TOKEN with
  | none => Except.error LoadError.botTokenMissing
  | some token =>
    if token = "" then Except.error LoadError.botTokenMissing
    else
      match parseAdminIds (env.ADMIN_IDS.getD "") with
      | none => Except.error LoadError.adminIdsInvalid
      | some ids => Except.ok ⟨token, ids⟩

structure UserbotConfig where
  api_id : Int
  api_hash : String
  phone : String
  session_name : String
deriving DecidableEq, Repr

/-- `UserbotConfig.from_env`: any of the three required variables missing
or falsy raises one combined error; then `int(api_id)` may raise. -/
def userbotConfig_from_env (env : PyEnv) : Except LoadError UserbotConfig :=
  match env.USERBOT_API_ID, env.USERBOT_API_HASH, env.USERBOT_PHONE with
  | some aid, some ah, some ph =>
    if aid = "" ∨ ah = "" ∨ ph = "" then Except.error LoadError.userbotMissing
    else
      match pyInt aid with
      | none => Except.error (LoadError.intInvalid "USERBOT_API_ID")
      | some n => Except.ok ⟨n, ah, ph, env.USERBOT_SESSION.getD "userbot_session"⟩
  | _, _, _ => Except.error LoadError.userbotMissing

structure DatabaseConfig where
  host : String
  port : Int
  name : String
  user : String
  password : String
  min_pool_size : Int
  max_pool_size : Int
deriving DecidableEq, Repr

/-- `DatabaseConfig.from_env`: every variable has a default; the three
`int(...)` conversions may raise. -/
def databaseConfig_from_env (env : PyEnv) : Except LoadError DatabaseConfig :=
  match pyInt (env.DB_PORT.getD "5432") with
  | none => Except.error (LoadError.intInvalid "DB_PORT")
  | some port =>
    match pyInt (env.DB_MIN_POOL_SIZE.getD "5") with
    | none => Except.error (LoadError.intInvalid "DB_MIN_POOL_SIZE")
    | some mn =>
      match pyInt (env.DB_MAX_POOL_SIZE.getD "20") with
      | none => Except.error (LoadError.intInvalid "DB_MAX_POOL_SIZE")
      | some mx =>
        Except.ok ⟨env.DB_HOST.getD "localhost", port, env.DB_NAME.getD "stories_bot",
          env.DB_USER.getD "postgres", env.DB_PASS.getD "", mn, mx⟩

structure AppConfig where
  debug : Bool
  log_level : String
  max_stories_per_request : Int
  request_timeout : Int
  flood_wait_delay : PyFloat
deriving DecidableEq, Repr

/-- `AppConfig.from_env`: every variable has a default; the two `int(...)`
and one `float(...)` conversions may raise;
`DEBUG.lower() == 'true'` is the debug flag. -/
def appConfig_from_env (env : PyEnv) : Except LoadError AppConfig :=
  match pyInt (env.MAX_STORIES_PER_REQUEST.getD "100") with
  | none => Except.error (LoadError.intInvalid "MAX_STORIES_PER_REQUEST")
  | some mx =>
    match pyInt (env.REQUEST_TIMEOUT.getD "60") with
    | none => Except.error (LoadError.intInvalid "REQUEST_TIMEOUT")
    | some rt =>
      match pyFloat (env.FLOOD_WAIT_DELAY.getD "0.5") with
      | none => Except.error (LoadError.floatInvalid "FLOOD_WAIT_DELAY")
      | some fd =>
        Except.ok ⟨(env.DEBUG.getD "False").toList.map Char.toLower == "true".toList,
          env.LOG_LEVEL.getD "INFO", mx, rt, fd⟩

structure Config where
  bot : BotConfig
  userbot : UserbotConfig
  database : DatabaseConfig
  app : AppConfig
deriving DecidableEq, Repr

/-- `Config.load`: build the four groups in order, failing on the first
raising group. -/
def config_load (env : PyEnv) : Except LoadError Config := do
  let b ← botConfig_from_env env
  let u ← userbotConfig_from_env env
  let d ← databaseConfig_from_env env
  let a ← appConfig_from_env env
  pure ⟨b, u, d, a⟩

/-- The error strings collected by `Config.validate`, in source order
(the phone check is `startswith('+')`, modelled on the first character). -/
def validationErrors (c : Config) : List String :=
  (if c.bot.token = "" then ["Bot token is empty"] else []) ++
  (if c.userbot.api_id ≤ 0 then ["Invalid API ID"] else []) ++
  (if c.userbot.api_hash.toList.length < 32 then ["Invalid API Hash"] else []) ++
  (if ¬ (c.userbot.phone.toList.head? = some '+') then
    ["Phone number must start with +"] else []) ++
  (if c.database.password = "" then ["Database password is empty"] else [])

/-- `get_config`: `Config.load()` then `Config.validate()`; a nonempty
collected error list raises one `ValueError` enumerating all of them. -/
def get_config (env : PyEnv) : Except LoadError Config :=
  match config_load env with
  | Except.error e => Except.error e
  | Except.ok c =>
    if validationErrors c = [] then Except.ok c
    else Except.error (LoadError.validationFailed (validationErrors c))

/-! ## Claim C8 -/

/-- An environment with no variables set. -/
def envEmpty : PyEnv :=
  ⟨none, none, none, none, none, none, none, none, none, none, none, none, none,
    none, none, none, none, none⟩

/-- C8 counterexample: with `BOT_TOKEN` and the userbot variables all
absent, startup fails with the bot-token error alone — not with a single
validation error enumerating all of the missing values as a list. -/
theorem c8_counterexample :
    envEmpty.BOT_TOKEN = none ∧ envEmpty.USERBOT_PHONE = none ∧
      get_config envEmpty = Except.error LoadError.botTokenMissing :=
  ⟨rfl, rfl, rfl⟩

/-- C8 (amended): loading fails fast on absent required values — a missing
bot token aborts immediately with its own single error, without enumerating
other missing values, and (with the bot group loading) a missing userbot
variable aborts with that group's single combined error — while values that
load successfully but fail validation are all collected and reported in
one single error carrying the full list. -/
theorem c8_amended_validation_error_list :
    (∀ env : PyEnv, env.BOT_TOKEN = none →
      get_config env = Except.error LoadError.botTokenMissing) ∧
    (∀ (env : PyEnv) (b : BotConfig), botConfig_from_env env = Except.ok b →
      (env.USERBOT_API_ID = none ∨ env.USERBOT_API_HASH = none ∨
        env.USERBOT_PHONE = none) →
      get_config env = Except.error LoadError.userbotMissing) ∧
    (∀ (env : PyEnv) (c : Config), config_load env = Except.ok c →
      validationErrors c ≠ [] →
      get_config env = Except.error (LoadError.validationFailed
        (validationErrors c))) := by
  refine ⟨?_, ?_, ?_⟩
  · intro env h
    have hb : botConfig_from_env env = Except.error LoadError.botTokenMissing := by
      unfold botConfig_from_env
      rw [h]
    have hl : config_load env = Except.error LoadError.botTokenMissing := by
      unfold config_load
      rw [hb]
      rfl
    unfold get_config
    rw [hl]
  · intro env b hb hmiss
    have hu : userbotConfig_from_env env = Except.error LoadError.userbotMissing := by
      unfold userbotConfig_from_env
      cases ha : env.USERBOT_API_ID with
      | none => rfl
      | some aid =>
        cases hh : env.USERBOT_API_HASH with
        | none => rfl
        | some ah =>
          cases hp : env.USERBOT_PHONE with
          | none => rfl
          | some ph =>
            exfalso
            rcases hmiss with h1 | h1 | h1
            · rw [ha] at h1
              exact Option.noConfusion h1
            · rw [hh] at h1
              exact Option.noConfusion h1
            · rw [hp] at h1
              exact Option.noConfusion h1
    have hl : config_load env = Except.error LoadError.userbotMissing := by
      unfold config_load
      rw [hb, hu]
      rfl
    unfold get_config
    rw [hl]
  · intro env c hload hne
    unfold get_config
    rw [hload]
    dsimp only
    rw [if_neg hne]

/-- An environment whose required values are all present but where four
validation checks fail. -/
def envBad : PyEnv :=
  ⟨some "token123", none, some "0", some "shorthash", some "998901234567", none,
    none, none, none, none, none, none, none, none, none, none, none, none⟩

/-- An environment where the bot token is set but the userbot phone is
missing. -/
def envNoPhone : PyEnv :=
  ⟨some "token123", none, some "12345", some "somehash", none, none, none, none,
    none, none, none, none, none, none, none, none, none, none⟩

/-- Witness for the amended C8: with the bot token set but `USERBOT_PHONE`
unset, `get_config` fails with the single combined userbot error; and on
`envBad` (everything present, four checks invalid) it fails with the one
error enumerating all four failed validation checks. -/
theorem c8_amended_validation_error_list_witness :
    get_config envNoPhone = Except.error LoadError.userbotMissing ∧
      get_config envBad = Except.error (LoadError.validationFailed
        ["Invalid API ID", "Invalid API Hash", "Phone number must start with +",
         "Database password is empty"]) := by
  constructor
  · exact c8_amended_validation_error_list.2.1 envNoPhone ⟨"token123", []⟩ rfl
      (Or.inr (Or.inr rfl))
  · have h := c8_amended_validation_error_list.2.2 envBad
      ⟨⟨"token123", []⟩, ⟨0, "shorthash", "998901234567", "userbot_session"⟩,
       ⟨"localhost", 5432, "stories_bot", "postgres", "", 5, 20⟩,
       ⟨false, "INFO", 100, 60, ⟨false, 5, 10⟩⟩⟩
      rfl (by decide)
    exact h.trans rfl

/-! ## Delivery and pagination layer (spec section 4.3)

The delivery/pagination code of the repository is not among the provided
sources (the provided bot.py sends every downloaded item without paging),
so the layer is modelled from the spec. -/

/-- Modelled from the spec: the delivery/pagination layer is missing from
the provided sources; spec section 4.3 fixes the page size at 5 items. -/
def PAGE_SIZE : Nat := 5

/-- Modelled from the spec: total pages is the ceiling of
total / PAGE_SIZE, computed in the usual integer form. -/
def total_pages (total : Nat) : Nat := (total + PAGE_SIZE - 1) / PAGE_SIZE

/-- Modelled from the spec: page `p` renders the Python slice
`items[p*PAGE_SIZE : (p+1)*PAGE_SIZE]` (the upper bound clipping to the
length is implicit in `take`). -/
def page_slice {α : Type} (items : List α) (page : Nat) : List α :=
  (items.drop (page * PAGE_SIZE)).take PAGE_SIZE

/-! ## Claim C9 -/

/-- C9: delivery is paginated with fixed page size 5: page `p` is exactly
the slice items[p·5 : min((p+1)·5, total)]; `total_pages` is the exact
ceiling of total/5 (the characterising bounds `n ≤ 5·pages ≤ n + 4` hold);
and a 12-item sequence yields 3 pages sliced items[0:5], items[5:10],
items[10:12]. -/
theorem c9_pagination_fixed_page_size :
    (∀ (α : Type) (items : List α) (p : Nat),
      page_slice items p =
        (items.take (min ((p + 1) * PAGE_SIZE) items.length)).drop (p * PAGE_SIZE)) ∧
    (∀ n : Nat, n ≤ PAGE_SIZE * total_pages n ∧
      PAGE_SIZE * total_pages n ≤ n + (PAGE_SIZE - 1)) ∧
    total_pages 12 = 3 ∧
    (∀ (α : Type) (a b c d e f g h i j k l : α),
      page_slice [a, b, c, d, e, f, g, h, i, j, k, l] 0 = [a, b, c, d, e] ∧
      page_slice [a, b, c, d, e, f, g, h, i, j, k, l] 1 = [f, g, h, i, j] ∧
      page_slice [a, b, c, d, e, f, g, h, i, j, k, l] 2 = [k, l]) := by
  refine ⟨?_, ?_, rfl, ?_⟩
  · intro α items p
    unfold page_slice
    conv_rhs => rw [List.drop_take]
    apply List.take_eq_take.mpr
    simp only [List.length_drop, PAGE_SIZE]
    omega
  · intro n
    unfold total_pages PAGE_SIZE
    omega
  · intro α a b c d e f g h i j k l
    exact ⟨rfl, rfl, rfl⟩

end DownloaderBot
